import Mathlib

/-!
# Verification of the trading-system signal core

Shallow embedding, in Lean 4, of the signal-computation and orchestration
core of the `trading_system_trial1` repository:

* the orchestrator's 2-of-4 voting rule (`src/agents/orchestrator_agent.py`,
  `OrchestratorAgent.evaluate_buy_signal`) and its two execution modes;
* the RSI pipeline (`src/agents/rsi_combined_agent.py`);
* the MACD seasonal classification (`src/agents/macd_combined_agent.py`);
* the SMA-delta summaries (`src/agents/sma_delta_agent.py`,
  `src/agents/sma_delta_combined_agent.py`);
* the Supertrend band/signal recurrence (`src/agents/supertrend_agent.py`);
* the input-validation and result-wrapping layer
  (`src/agents/unified_agent.py`, `src/exceptions.py`).

Prices are modelled as exact rationals.  A pandas `NaN` cell is modelled as
`Option.none`; in line with IEEE semantics every ordered comparison against
`none` is `False`, and the two division singularities of the RSI formula
(`x / 0 = +inf` for `x > 0`, `0 / 0 = NaN`) are spelled out explicitly where
they occur.
-/

namespace Trading

/-! ## Orchestrator vote (`OrchestratorAgent.evaluate_buy_signal`)

The orchestrator receives one result dictionary per sub-agent (keys
`"MACD"`, `"RSI"`, `"SMA"`, `"Supertrend"`).  Each view below carries
exactly the fields `evaluate_buy_signal` reads from that dictionary, with
`Option` marking keys that may be absent (a `.get(key, default)` in the
source). -/

/-- View of `sub_agent_results["MACD"]`.  `summary_current_season` is
`seasonal_analysis.get("current_season", …)` when the summary carries a
`seasonal_analysis` block (`hasSeasonalSummary`); otherwise the orchestrator
falls back to `output.get("current_season", "Unknown")`
(`output_current_season`). -/
structure MACDView where
  status : String
  hasSeasonalSummary : Bool
  summary_current_season : Option String
  output_current_season : Option String
  deriving Repr, DecidableEq

/-- Season string the orchestrator resolves for condition 1
(orchestrator_agent.py lines 153-166). -/
def MACDView.season (v : MACDView) : String :=
  if v.hasSeasonalSummary then v.summary_current_season.getD "Unknown"
  else v.output_current_season.getD "Unknown"

/-- View of `sub_agent_results["RSI"]`.  The orchestrator prefers
`summary["extreme_levels"]["is_above_90"]`, then `summary["is_above_90"]`,
then `output["is_above_90"]`, each with default `True`
(orchestrator_agent.py lines 174-189). -/
structure RSIView where
  status : String
  hasSummary : Bool
  hasExtremeLevels : Bool
  extreme_is_above_90 : Option Bool
  summary_is_above_90 : Option Bool
  output_is_above_90 : Option Bool
  deriving Repr, DecidableEq

/-- The `is_above_90` flag the orchestrator resolves for condition 2. -/
def RSIView.isAbove90 (v : RSIView) : Bool :=
  if v.hasSummary then
    if v.hasExtremeLevels then v.extreme_is_above_90.getD true
    else v.summary_is_above_90.getD true
  else v.output_is_above_90.getD true

/-- View of `sub_agent_results["SMA"]`:
`output.get("is_favorable_for_buy", False)`. -/
structure SMAView where
  status : String
  output_is_favorable_for_buy : Option Bool
  deriving Repr, DecidableEq

/-- View of `sub_agent_results["Supertrend"]`:
`output.get("is_green", False)`. -/
structure SupertrendView where
  status : String
  output_is_green : Option Bool
  deriving Repr, DecidableEq

/-- The evaluation dictionary returned by `evaluate_buy_signal`
(orchestrator_agent.py lines 230-237). -/
structure BuySignalEvaluation where
  buy_signal : Bool
  conditions_met : Nat
  conditions_required : Nat
  condition_1_macd_season : Bool
  condition_2_rsi_check : Bool
  condition_3_sma_delta : Bool
  condition_4_supertrend : Bool
  recommendation : String
  deriving Repr, DecidableEq

/-- Condition 1: MACD season is Spring or Summer (set only when the MACD
sub-result completed). -/
def cond1 (m : MACDView) : Bool :=
  m.status == "completed" && (m.season == "Spring" || m.season == "Summer")

/-- Condition 2: RSI is not above 90 (set only when the RSI sub-result
completed). -/
def cond2 (r : RSIView) : Bool :=
  r.status == "completed" && !r.isAbove90

/-- Condition 3: SMA delta favorable for buy (set only when the SMA
sub-result completed). -/
def cond3 (s : SMAView) : Bool :=
  s.status == "completed" && s.output_is_favorable_for_buy.getD false

/-- Condition 4: Supertrend is Green (set only when the Supertrend
sub-result completed). -/
def cond4 (t : SupertrendView) : Bool :=
  t.status == "completed" && t.output_is_green.getD false

/-- `OrchestratorAgent.evaluate_buy_signal` (orchestrator_agent.py lines
131-237).  Each condition starts out `False` and is only set when the
corresponding sub-result's status is `"completed"`; `conditions_met` sums
the four booleans and the recommendation is `"BUY"` iff at least 2 hold. -/
def evaluate_buy_signal (m : MACDView) (r : RSIView) (s : SMAView)
    (t : SupertrendView) : BuySignalEvaluation :=
  let c1 := cond1 m
  let c2 := cond2 r
  let c3 := cond3 s
  let c4 := cond4 t
  let n := (if c1 then 1 else 0) + (if c2 then 1 else 0) +
    (if c3 then 1 else 0) + (if c4 then 1 else 0)
  { buy_signal := decide (2 ≤ n)
    conditions_met := n
    conditions_required := 2
    condition_1_macd_season := c1
    condition_2_rsi_check := c2
    condition_3_sma_delta := c3
    condition_4_supertrend := c4
    recommendation := if 2 ≤ n then "BUY" else "HOLD/WAIT" }

/-- The condition booleans, in order, as a list (for counting). -/
def BuySignalEvaluation.conditionList (e : BuySignalEvaluation) : List Bool :=
  [e.condition_1_macd_season, e.condition_2_rsi_check,
   e.condition_3_sma_delta, e.condition_4_supertrend]

/-- C1: for every assignment of the four boolean voting conditions (all 16
combinations arise, since the views below are arbitrary),
`evaluate_buy_signal` returns `conditions_met` equal to the count of true
conditions (hence between 0 and 4), `buy_signal` true exactly when
`conditions_met ≥ 2`, and recommendation `"BUY"` when `buy_signal` holds
and `"HOLD/WAIT"` otherwise. -/
theorem evaluate_buy_signal_vote_rule (m : MACDView) (r : RSIView)
    (s : SMAView) (t : SupertrendView) :
    (evaluate_buy_signal m r s t).conditions_met =
      (evaluate_buy_signal m r s t).conditionList.count true ∧
    (evaluate_buy_signal m r s t).conditions_met ≤ 4 ∧
    ((evaluate_buy_signal m r s t).buy_signal = true ↔
      2 ≤ (evaluate_buy_signal m r s t).conditions_met) ∧
    (evaluate_buy_signal m r s t).recommendation =
      (if (evaluate_buy_signal m r s t).buy_signal then "BUY"
       else "HOLD/WAIT") := by
  unfold evaluate_buy_signal
  cases cond1 m <;> cases cond2 r <;> cases cond3 s <;> cases cond4 t <;>
    simp [BuySignalEvaluation.conditionList]

/-- C2: a sub-result whose status is not `"completed"` (in particular a
failed one) contributes `false` to its condition, and when all four
sub-agents fail the vote degrades to 0 conditions met and recommendation
`"HOLD/WAIT"` (no exception is possible: the evaluation is total). -/
theorem evaluate_buy_signal_failed_degrades (m : MACDView) (r : RSIView)
    (s : SMAView) (t : SupertrendView) :
    (m.status ≠ "completed" →
      (evaluate_buy_signal m r s t).condition_1_macd_season = false) ∧
    (r.status ≠ "completed" →
      (evaluate_buy_signal m r s t).condition_2_rsi_check = false) ∧
    (s.status ≠ "completed" →
      (evaluate_buy_signal m r s t).condition_3_sma_delta = false) ∧
    (t.status ≠ "completed" →
      (evaluate_buy_signal m r s t).condition_4_supertrend = false) ∧
    (m.status = "failed" → r.status = "failed" → s.status = "failed" →
      t.status = "failed" →
      (evaluate_buy_signal m r s t).conditions_met = 0 ∧
      (evaluate_buy_signal m r s t).buy_signal = false ∧
      (evaluate_buy_signal m r s t).recommendation = "HOLD/WAIT") := by
  refine ⟨fun hm => ?_, fun hr => ?_, fun hs => ?_, fun ht => ?_,
    fun hm hr hs ht => ?_⟩
  · simp [evaluate_buy_signal, cond1, hm]
  · simp [evaluate_buy_signal, cond2, hr]
  · simp [evaluate_buy_signal, cond3, hs]
  · simp [evaluate_buy_signal, cond4, ht]
  · simp [evaluate_buy_signal, cond1, cond2, cond3, cond4, hm, hr, hs, ht]

/-- Witness for C2 at a concrete all-failed input (the shape the
orchestrator builds in its `except` branches: status `"failed"`,
`output = None`). -/
theorem evaluate_buy_signal_failed_degrades_witness :
    (evaluate_buy_signal ⟨"failed", false, none, none⟩
      ⟨"failed", false, false, none, none, none⟩
      ⟨"failed", none⟩ ⟨"failed", none⟩).conditions_met = 0 ∧
    (evaluate_buy_signal ⟨"failed", false, none, none⟩
      ⟨"failed", false, false, none, none, none⟩
      ⟨"failed", none⟩ ⟨"failed", none⟩).buy_signal = false ∧
    (evaluate_buy_signal ⟨"failed", false, none, none⟩
      ⟨"failed", false, false, none, none, none⟩
      ⟨"failed", none⟩ ⟨"failed", none⟩).recommendation = "HOLD/WAIT" :=
  (evaluate_buy_signal_failed_degrades _ _ _ _).2.2.2.2 rfl rfl rfl rfl

/-! ## Price data and input validation
(`src/agents/unified_agent.py`, `src/exceptions.py`)

A bar keeps the High/Low/Close cells the indicators read (`Open` and
`Volume` are never read by the embedded computations).  The `has*` flags
model presence of the required columns, checked by
`UnifiedAgent._validate_input`. -/

structure Bar where
  high : ℚ
  low : ℚ
  close : ℚ
  deriving Repr, DecidableEq

structure DataFrame where
  bars : List Bar
  hasOpen : Bool
  hasHigh : Bool
  hasLow : Bool
  hasClose : Bool
  deriving Repr, DecidableEq

def DataFrame.closes (df : DataFrame) : List ℚ := df.bars.map Bar.close

/-- The typed validation failures of `exceptions.py` that
`UnifiedAgent._validate_input` can raise (`EmptyDataFrameError`,
`MissingColumnsError`, `InsufficientDataError{required, actual}`). -/
inductive ValidationError where
  | emptyDataFrame
  | missingColumns (missing : List String)
  | insufficientData (required actual : Nat)
  deriving Repr, DecidableEq

/-- `[col for col in ["Open","High","Low","Close"] if col not in df.columns]`. -/
def DataFrame.missingCols (df : DataFrame) : List String :=
  (if df.hasOpen then [] else ["Open"]) ++
  (if df.hasHigh then [] else ["High"]) ++
  (if df.hasLow then [] else ["Low"]) ++
  (if df.hasClose then [] else ["Close"])

/-- `UnifiedAgent._validate_input` (unified_agent.py lines 184-208): empty
check first, then required columns, then the minimum row count from
`get_minimum_rows`. -/
def validateInput (minRows : Nat) (df : DataFrame) : Option ValidationError :=
  if df.bars.length = 0 then some .emptyDataFrame
  else if df.missingCols ≠ [] then some (.missingColumns df.missingCols)
  else if df.bars.length < minRows then
    some (.insufficientData minRows df.bars.length)
  else none

/-- The `AgentResult` envelope of unified_agent.py restricted to the fields
the claims read (`data` is modelled separately by the per-indicator column
functions; the error string `"TypeName: message"` is modelled by the typed
`ValidationError` it renders). -/
structure AgentResultM (σ : Type) where
  status : String
  summary : Option σ
  error : Option ValidationError
  deriving Repr, DecidableEq

/-- `UnifiedAgent.run` (unified_agent.py lines 122-182): validate, then
process; a raised validation error is caught and converted into a failed
result, otherwise the result is completed and carries the summary. -/
def runUnified {σ : Type} (minRows : Nat) (process : DataFrame → σ)
    (df : DataFrame) : AgentResultM σ :=
  match validateInput minRows df with
  | some e => ⟨"failed", none, some e⟩
  | none => ⟨"completed", some (process df), none⟩

/-! ## RSI pipeline (`src/agents/rsi_combined_agent.py`)

`RSICombinedAgent._calculate_rsi` over exact rationals.  `diff()` makes the
first delta `NaN`; `delta.where(delta > 0, 0)` maps that `NaN` to `0`
(`NaN > 0` is `False`), so gains and losses are fully defined with a
leading `0`.  The rolling means use `min_periods=1`, so the window shrinks
at the start of the series. -/

/-- `gains = delta.where(delta > 0, 0)` with `delta = Close.diff()`. -/
def gainsList (closes : List ℚ) : List ℚ :=
  match closes with
  | [] => []
  | _ :: t => 0 :: List.zipWith (fun a b => max (a - b) 0) t closes

/-- `losses = -delta.where(delta < 0, 0)`. -/
def lossesList (closes : List ℚ) : List ℚ :=
  match closes with
  | [] => []
  | _ :: t => 0 :: List.zipWith (fun a b => max (b - a) 0) t closes

/-- The slice of `xs` a `rolling(window=p, min_periods=1)` aggregation sees
at row `i` (the last `min(i+1, p)` elements up to and including row `i`). -/
def windowAt (xs : List ℚ) (p i : Nat) : List ℚ :=
  (xs.take (i + 1)).drop (i + 1 - p)

/-- `rolling(window=p, min_periods=1).mean()` at row `i`. -/
def rollingMean1 (xs : List ℚ) (p i : Nat) : ℚ :=
  (windowAt xs p i).sum / ((windowAt xs p i).length : ℚ)

def avgGain (closes : List ℚ) (p i : Nat) : ℚ :=
  rollingMean1 (gainsList closes) p i

def avgLoss (closes : List ℚ) (p i : Nat) : ℚ :=
  rollingMean1 (lossesList closes) p i

/-- `RSI = 100 - 100/(1 + avg_gain/avg_loss)` with the pandas float
singularities made explicit: `avg_loss = 0` with a positive `avg_gain`
gives `RS = +inf` and hence `RSI = 100`; `0/0` gives `NaN` (`none`). -/
def rsiOfAvgs (g l : ℚ) : Option ℚ :=
  if l = 0 then (if g = 0 then none else some 100)
  else some (100 - 100 / (1 + g / l))

/-- The `RSI` column attached to the frame (one `Option ℚ` per row,
`none` = `NaN`). -/
def rsiColumn (closes : List ℚ) (p : Nat) : List (Option ℚ) :=
  (List.range closes.length).map fun i =>
    rsiOfAvgs (avgGain closes p i) (avgLoss closes p i)

/-- Every element produced by a binary `zipWith` satisfies a predicate that
holds of `f` applied to any pair of members of the two input lists. -/
lemma forall_mem_zipWith {α β γ : Type} {f : α → β → γ} {P : γ → Prop} :
    ∀ (l₁ : List α) (l₂ : List β),
      (∀ a ∈ l₁, ∀ b ∈ l₂, P (f a b)) →
      ∀ x ∈ List.zipWith f l₁ l₂, P x := by
  intro l₁
  induction l₁ with
  | nil => intro l₂ _ x hx; simp at hx
  | cons a t ih =>
    intro l₂ hf x hx
    cases l₂ with
    | nil => simp at hx
    | cons b t₂ =>
      rcases List.mem_cons.mp hx with h | h
      · exact h ▸ hf a (List.mem_cons_self _ _) b (List.mem_cons_self _ _)
      · exact ih t₂
          (fun a' ha' b' hb' =>
            hf a' (List.mem_cons_of_mem _ ha') b' (List.mem_cons_of_mem _ hb'))
          x h

lemma gainsList_nonneg (closes : List ℚ) : ∀ x ∈ gainsList closes, 0 ≤ x := by
  intro x hx
  cases closes with
  | nil => simp [gainsList] at hx
  | cons c t =>
    rcases List.mem_cons.mp hx with h | h
    · simp [h]
    · exact forall_mem_zipWith _ _ (fun a _ b _ => le_max_right _ _) x h

lemma lossesList_nonneg (closes : List ℚ) : ∀ x ∈ lossesList closes, 0 ≤ x := by
  intro x hx
  cases closes with
  | nil => simp [lossesList] at hx
  | cons c t =>
    rcases List.mem_cons.mp hx with h | h
    · simp [h]
    · exact forall_mem_zipWith _ _ (fun a _ b _ => le_max_right _ _) x h

lemma windowAt_subset (xs : List ℚ) (p i : Nat) : windowAt xs p i ⊆ xs :=
  (List.drop_subset _ _).trans (List.take_subset _ _)

lemma rollingMean1_nonneg {xs : List ℚ} (h : ∀ x ∈ xs, 0 ≤ x) (p i : Nat) :
    0 ≤ rollingMean1 xs p i := by
  unfold rollingMean1
  exact div_nonneg
    (List.sum_nonneg fun x hx => h x (windowAt_subset xs p i hx))
    (Nat.cast_nonneg _)

lemma avgGain_nonneg (closes : List ℚ) (p i : Nat) : 0 ≤ avgGain closes p i :=
  rollingMean1_nonneg (gainsList_nonneg closes) p i

lemma avgLoss_nonneg (closes : List ℚ) (p i : Nat) : 0 ≤ avgLoss closes p i :=
  rollingMean1_nonneg (lossesList_nonneg closes) p i

/-- Whenever the RSI formula produces a defined value from nonnegative
average gain and loss, that value is in `[0, 100]`. -/
lemma rsiOfAvgs_mem_range {g l v : ℚ} (hg : 0 ≤ g) (hl : 0 ≤ l)
    (hv : rsiOfAvgs g l = some v) : 0 ≤ v ∧ v ≤ 100 := by
  unfold rsiOfAvgs at hv
  by_cases h0 : l = 0
  · rw [if_pos h0] at hv
    by_cases hg0 : g = 0
    · simp [hg0] at hv
    · rw [if_neg hg0] at hv
      cases hv
      constructor <;> norm_num
  · rw [if_neg h0] at hv
    cases hv
    have hlpos : 0 < l := lt_of_le_of_ne hl (Ne.symm h0)
    have hrs : 0 ≤ g / l := div_nonneg hg hl
    have hden : (1 : ℚ) ≤ 1 + g / l := by linarith
    have hfrac_pos : 0 ≤ 100 / (1 + g / l) :=
      div_nonneg (by norm_num) (by linarith)
    have hfrac_le : 100 / (1 + g / l) ≤ 100 :=
      div_le_self (by norm_num) hden
    constructor <;> linarith

/-- C6: every defined (non-`NaN`) value in the computed RSI column lies in
`[0, 100]`, and on any row where the rolling average loss is `0` and the
rolling average gain is strictly positive the RSI value is exactly `100`. -/
theorem rsi_column_in_range_and_zero_loss (closes : List ℚ) (p : Nat) :
    (∀ v : ℚ, some v ∈ rsiColumn closes p → 0 ≤ v ∧ v ≤ 100) ∧
    (∀ i : Nat, i < closes.length → avgLoss closes p i = 0 →
      0 < avgGain closes p i →
      (rsiColumn closes p).get? i = some (some 100)) := by
  constructor
  · intro v hv
    rcases List.mem_map.mp hv with ⟨i, _, hi⟩
    exact rsiOfAvgs_mem_range (avgGain_nonneg closes p i)
      (avgLoss_nonneg closes p i) hi
  · intro i hi hl hg
    have : rsiOfAvgs (avgGain closes p i) (avgLoss closes p i) = some 100 := by
      unfold rsiOfAvgs
      rw [if_pos hl, if_neg (ne_of_gt hg)]
    simp [rsiColumn, List.get?_eq_getElem?, List.getElem?_map,
      List.getElem?_range, hi, this]

/-- Witness for C6 on the concrete series `[1, 2]` with period 14: the
second row has average loss `0` and average gain `1/2 > 0`, and its RSI is
exactly 100. -/
theorem rsi_column_in_range_and_zero_loss_witness :
    (rsiColumn [(1 : ℚ), 2] 14).get? 1 = some (some 100) :=
  (rsi_column_in_range_and_zero_loss [(1 : ℚ), 2] 14).2 1 (by norm_num)
    (by norm_num [avgLoss, rollingMean1, windowAt, lossesList])
    (by norm_num [avgGain, rollingMean1, windowAt, gainsList])

/-! ## RSI summary (`RSICombinedAgent._generate_comprehensive_summary`) -/

/-- `RSIConfig` of config.py (period plus the four thresholds). -/
structure RSIConfig where
  period : Nat
  overbought_threshold : ℚ
  oversold_threshold : ℚ
  extreme_overbought : ℚ
  extreme_oversold : ℚ
  deriving Repr, DecidableEq

/-- config.py defaults: period 14, 70/30, extremes 90/10. -/
def defaultRSIConfig : RSIConfig := ⟨14, 70, 30, 90, 10⟩

/-- `x > t` on a possibly-`NaN` float: `False` when `NaN`. -/
def nanGT (v : Option ℚ) (t : ℚ) : Bool :=
  match v with
  | some x => decide (t < x)
  | none => false

/-- `x >= t` on a possibly-`NaN` float: `False` when `NaN`. -/
def nanGE (v : Option ℚ) (t : ℚ) : Bool :=
  match v with
  | some x => decide (t ≤ x)
  | none => false

/-- `x < t` on a possibly-`NaN` float: `False` when `NaN`. -/
def nanLT (v : Option ℚ) (t : ℚ) : Bool :=
  match v with
  | some x => decide (x < t)
  | none => false

/-- `x <= t` on a possibly-`NaN` float: `False` when `NaN`. -/
def nanLE (v : Option ℚ) (t : ℚ) : Bool :=
  match v with
  | some x => decide (x ≤ t)
  | none => false

/-- `RSICombinedAgent._determine_zone` (rsi_combined_agent.py lines
175-194). -/
def determineZone (cfg : RSIConfig) (v : Option ℚ) : String :=
  if nanGT v cfg.extreme_overbought then "Extreme Overbought"
  else if nanGE v cfg.overbought_threshold then "Overbought"
  else if nanLT v cfg.extreme_oversold then "Extreme Oversold"
  else if nanLE v cfg.oversold_threshold then "Oversold"
  else "Neutral"

/-- The summary dictionary of
`RSICombinedAgent._generate_comprehensive_summary`, restricted to the
fields the claims read.  The `err` branch is the early return of lines
118-122 (`{"error": …, "signal": "NEUTRAL"}`); the `ok` branch keeps the
raw latest RSI (`none` = `NaN`; the dictionary additionally rounds it to 2
decimals for display), the zone, and the three `extreme_levels` booleans of
lines 131-133. -/
inductive RSISummary where
  | err (message signal : String)
  | ok (rsi_value : Option ℚ) (zone : String)
      (is_above_extreme_overbought : Bool)
      (is_below_extreme_oversold : Bool)
      (is_above_90 : Bool)
  deriving Repr, DecidableEq

/-- `float(df.iloc[-1]['RSI'])`: the last row of the RSI column (`none` =
`NaN`; an empty frame cannot reach this read). -/
def lastRSI (closes : List ℚ) (p : Nat) : Option ℚ :=
  ((rsiColumn closes p).getLast?).getD none

/-- `RSICombinedAgent._generate_comprehensive_summary`
(rsi_combined_agent.py lines 106-173): if `df['RSI'].dropna()` is empty,
the error summary with signal `"NEUTRAL"`; otherwise the zone and extreme
levels of the latest RSI value, with `is_above_90 = rsi_value > 90` using
the literal constant 90. -/
def rsiSummary (cfg : RSIConfig) (closes : List ℚ) : RSISummary :=
  let col := rsiColumn closes cfg.period
  if (col.filterMap id).length = 0 then
    .err "Unable to calculate RSI - no valid data" "NEUTRAL"
  else
    let v := col.getLast?.getD none
    .ok v (determineZone cfg v)
      (nanGT v cfg.extreme_overbought)
      (nanLT v cfg.extreme_oversold)
      (nanGT v 90)

/-- The surfaced `extreme_levels["is_above_90"]` flag (`none` when the
summary is the error dictionary, which has no such key). -/
def RSISummary.isAbove90? : RSISummary → Option Bool
  | .err _ _ => none
  | .ok _ _ _ _ a90 => some a90

/-- How a completed RSI result reaches `evaluate_buy_signal`: the summary
dictionary is always present; only the `ok` branch carries an
`extreme_levels` block. -/
def RSISummary.toView : RSISummary → RSIView
  | .err _ _ => ⟨"completed", true, false, none, none, none⟩
  | .ok _ _ _ _ a90 => ⟨"completed", true, true, some a90, none, none⟩

/-- C3: when the latest computed RSI value is defined, the surfaced
`is_above_90` flag equals `rsi_value > 90` with the literal constant 90,
it is unchanged under any reconfiguration of `extreme_overbought`, and the
orchestrator's condition 2 is its negation — true iff the RSI value is
`≤ 90`. -/
theorem rsi_condition2_iff_value_le_90 (cfg : RSIConfig) (closes : List ℚ)
    (v : ℚ) (m : MACDView) (s : SMAView) (t : SupertrendView)
    (hlast : lastRSI closes cfg.period = some v) :
    (rsiSummary cfg closes).isAbove90? = some (decide (90 < v)) ∧
    (∀ x : ℚ,
      (rsiSummary { cfg with extreme_overbought := x } closes).isAbove90? =
        (rsiSummary cfg closes).isAbove90?) ∧
    ((evaluate_buy_signal m ((rsiSummary cfg closes).toView) s
        t).condition_2_rsi_check = true ↔ v ≤ 90) := by
  have hcol : (rsiColumn closes cfg.period).getLast? = some (some v) := by
    unfold lastRSI at hlast
    cases h : (rsiColumn closes cfg.period).getLast? with
    | none => rw [h] at hlast; simp at hlast
    | some o => rw [h] at hlast; simp at hlast; rw [hlast]
  have hmem : some v ∈ rsiColumn closes cfg.period := by
    rcases List.mem_getLast?_eq_getLast (Option.mem_def.mpr hcol) with ⟨h, hv⟩
    exact hv ▸ List.getLast_mem h
  have hne : ((rsiColumn closes cfg.period).filterMap id).length ≠ 0 := by
    intro h0
    have := List.filterMap_eq_nil_iff.mp (List.length_eq_zero.mp h0) _ hmem
    simp at this
  refine ⟨?_, ?_, ?_⟩
  · unfold rsiSummary
    rw [if_neg hne, hcol]
    simp [RSISummary.isAbove90?, nanGT]
  · intro x
    by_cases h : ((rsiColumn closes cfg.period).filterMap id).length = 0 <;>
      simp [rsiSummary, h, RSISummary.isAbove90?]
  · unfold rsiSummary
    rw [if_neg hne, hcol]
    simp [RSISummary.toView, evaluate_buy_signal, cond2, RSIView.isAbove90,
      nanGT, not_lt]

/-- Witness for C3 on the series `[1, 2]` (latest RSI = 100) with the
default configuration: condition 2 is false because 100 > 90. -/
theorem rsi_condition2_iff_value_le_90_witness :
    ((evaluate_buy_signal ⟨"failed", false, none, none⟩
        ((rsiSummary defaultRSIConfig [(1 : ℚ), 2]).toView)
        ⟨"failed", none⟩ ⟨"failed", none⟩).condition_2_rsi_check = true ↔
      (100 : ℚ) ≤ 90) :=
  (rsi_condition2_iff_value_le_90 defaultRSIConfig [(1 : ℚ), 2] 100
    ⟨"failed", false, none, none⟩ ⟨"failed", none⟩ ⟨"failed", none⟩
    (by norm_num [lastRSI, rsiColumn, List.range_succ, avgGain, avgLoss,
      rollingMean1, windowAt, gainsList, lossesList, rsiOfAvgs,
      defaultRSIConfig])).2.2

/-! ## Running the RSI agent (`RSICombinedAgent.run` via `UnifiedAgent.run`) -/

/-- `RSICombinedAgent.get_minimum_rows` (rsi_combined_agent.py lines
52-54): `period + 1`. -/
def rsiMinimumRows (cfg : RSIConfig) : Nat := cfg.period + 1

/-- `RSICombinedAgent.run`: the inherited `UnifiedAgent.run` with the RSI
minimum-row requirement and the RSI summary as process step. -/
def runRSICombined (cfg : RSIConfig) (df : DataFrame) :
    AgentResultM RSISummary :=
  runUnified (rsiMinimumRows cfg) (fun d => rsiSummary cfg d.closes) df

/-- C4 counterexample: an empty series has fewer rows (0) than the RSI
agent's declared minimum (15), and `run` does return a failed result — but
its error is `EmptyDataFrameError`, not an `InsufficientDataError` carrying
the required/actual counts, because `_validate_input` checks emptiness
first. -/
theorem run_empty_frame_error_counterexample :
    (runRSICombined defaultRSIConfig ⟨[], true, true, true, true⟩).status =
      "failed" ∧
    (runRSICombined defaultRSIConfig ⟨[], true, true, true, true⟩).error =
      some .emptyDataFrame ∧
    (runRSICombined defaultRSIConfig ⟨[], true, true, true, true⟩).error ≠
      some (.insufficientData (rsiMinimumRows defaultRSIConfig) 0) := by
  refine ⟨rfl, rfl, ?_⟩
  simp [runRSICombined, runUnified, validateInput]

/-- C4 (amended): for every agent minimum and every **non-empty** input
frame that has the required columns but fewer rows than the minimum, `run`
returns a failed result whose error is `InsufficientDataError` with the
declared minimum as `required` and the input's row count as `actual`. -/
theorem run_fewer_rows_insufficient {σ : Type} (minRows : Nat)
    (process : DataFrame → σ) (df : DataFrame)
    (hne : df.bars ≠ [])
    (hcols : df.missingCols = [])
    (hlt : df.bars.length < minRows) :
    runUnified minRows process df =
      ⟨"failed", none, some (.insufficientData minRows df.bars.length)⟩ := by
  have hval : validateInput minRows df =
      some (.insufficientData minRows df.bars.length) := by
    unfold validateInput
    rw [if_neg (fun h => hne (List.length_eq_zero.mp h)),
      if_neg (fun h => h hcols), if_pos hlt]
  unfold runUnified
  rw [hval]

/-- Witness for C4 (amended): a 3-row frame fed to the RSI agent (minimum
15 rows) fails with `InsufficientDataError required=15 actual=3`. -/
theorem run_fewer_rows_insufficient_witness :
    runRSICombined defaultRSIConfig
      ⟨[⟨1, 1, 1⟩, ⟨1, 1, 1⟩, ⟨1, 1, 1⟩], true, true, true, true⟩ =
      ⟨"failed", none, some (.insufficientData 15 3)⟩ :=
  run_fewer_rows_insufficient 15 _
    ⟨[⟨1, 1, 1⟩, ⟨1, 1, 1⟩, ⟨1, 1, 1⟩], true, true, true, true⟩
    (by simp) rfl (by norm_num)

/-! ## C10: all-constant closes -/

lemma gainsList_const {closes : List ℚ} {c : ℚ} (h : ∀ x ∈ closes, x = c) :
    ∀ x ∈ gainsList closes, x = 0 := by
  intro x hx
  cases closes with
  | nil => simp [gainsList] at hx
  | cons c₀ t =>
    rcases List.mem_cons.mp hx with h0 | h0
    · exact h0
    · refine @forall_mem_zipWith ℚ ℚ ℚ _ (fun y => y = 0) t (c₀ :: t) ?_ x h0
      intro a ha b hb
      rw [h a (List.mem_cons_of_mem _ ha), h b hb]
      simp

lemma lossesList_const {closes : List ℚ} {c : ℚ} (h : ∀ x ∈ closes, x = c) :
    ∀ x ∈ lossesList closes, x = 0 := by
  intro x hx
  cases closes with
  | nil => simp [lossesList] at hx
  | cons c₀ t =>
    rcases List.mem_cons.mp hx with h0 | h0
    · exact h0
    · refine @forall_mem_zipWith ℚ ℚ ℚ _ (fun y => y = 0) t (c₀ :: t) ?_ x h0
      intro a ha b hb
      rw [h a (List.mem_cons_of_mem _ ha), h b hb]
      simp

lemma rollingMean1_zero {xs : List ℚ} (h : ∀ x ∈ xs, x = 0) (p i : Nat) :
    rollingMean1 xs p i = 0 := by
  unfold rollingMean1
  rw [List.sum_eq_zero fun x hx => h x (windowAt_subset xs p i hx), zero_div]

/-- When all closes are equal, every average gain and loss is `0`, so each
row's RS is the undefined quotient `0/0` and the whole RSI column is
`NaN`. -/
lemma rsiColumn_const_none {closes : List ℚ} {c : ℚ}
    (h : ∀ x ∈ closes, x = c) (p : Nat) :
    ∀ o ∈ rsiColumn closes p, o = none := by
  intro o ho
  rcases List.mem_map.mp ho with ⟨i, _, rfl⟩
  unfold avgGain avgLoss
  rw [rollingMean1_zero (gainsList_const h) p i,
    rollingMean1_zero (lossesList_const h) p i]
  rfl

/-- C10: on a series of at least `period + 1` rows whose closes are all
equal, `RSICombinedAgent.run` does not fail or raise a division error: it
returns a completed result whose summary is the error note with signal
`"NEUTRAL"`. -/
theorem rsi_constant_closes_completed_neutral (cfg : RSIConfig)
    (df : DataFrame) (c : ℚ)
    (hcols : df.missingCols = [])
    (hconst : ∀ b ∈ df.bars, b.close = c)
    (hlen : rsiMinimumRows cfg ≤ df.bars.length) :
    runRSICombined cfg df =
      ⟨"completed",
        some (.err "Unable to calculate RSI - no valid data" "NEUTRAL"),
        none⟩ := by
  have hne : ¬df.bars.length = 0 := by
    intro h
    rw [h] at hlen
    exact absurd hlen (by simp [rsiMinimumRows])
  have hval : validateInput (rsiMinimumRows cfg) df = none := by
    unfold validateInput
    rw [if_neg hne, if_neg (fun h => h hcols), if_neg (not_lt.mpr hlen)]
  have hcl : ∀ x ∈ df.closes, x = c := by
    intro x hx
    rcases List.mem_map.mp hx with ⟨b, hb, rfl⟩
    exact hconst b hb
  have hsum : rsiSummary cfg df.closes =
      .err "Unable to calculate RSI - no valid data" "NEUTRAL" := by
    unfold rsiSummary
    rw [if_pos]
    rw [List.length_eq_zero]
    exact List.filterMap_eq_nil_iff.mpr fun a ha =>
      rsiColumn_const_none hcl cfg.period a ha
  unfold runRSICombined runUnified
  rw [hval]
  show AgentResultM.mk "completed" (some (rsiSummary cfg df.closes)) none = _
  rw [hsum]

/-- Witness for C10: two bars both closing at 5, period 1 (minimum 2 rows):
the run completes with the NEUTRAL error summary. -/
theorem rsi_constant_closes_completed_neutral_witness :
    runRSICombined ⟨1, 70, 30, 90, 10⟩
      ⟨[⟨5, 5, 5⟩, ⟨5, 5, 5⟩], true, true, true, true⟩ =
      ⟨"completed",
        some (.err "Unable to calculate RSI - no valid data" "NEUTRAL"),
        none⟩ :=
  rsi_constant_closes_completed_neutral ⟨1, 70, 30, 90, 10⟩
    ⟨[⟨5, 5, 5⟩, ⟨5, 5, 5⟩], true, true, true, true⟩ 5 rfl
    (by intro b hb; simp at hb; subst hb; rfl)
    (by norm_num [rsiMinimumRows])

/-! ## MACD seasonal classification
(`MACDCombinedAgent._identify_season`, macd_combined_agent.py lines
220-253) -/

/-- `_identify_season` on the three values `(current, prev1, prev2)`
extracted from the last 3 points of the histogram: increasing means
`prev1 > prev2 and current > prev1`, decreasing means
`prev1 < prev2 and current < prev1`; the season is decided by the sign of
`current` combined with these, else `"Neutral"`. -/
def identifySeason (current prev1 prev2 : ℚ) : String :=
  let increasing := prev2 < prev1 ∧ prev1 < current
  let decreasing := prev1 < prev2 ∧ current < prev1
  if current < 0 ∧ increasing then "Spring"
  else if 0 < current ∧ increasing then "Summer"
  else if 0 < current ∧ decreasing then "Autumn"
  else if current < 0 ∧ decreasing then "Winter"
  else "Neutral"

/-- `_generate_seasonal_summary`'s current season
(macd_combined_agent.py lines 174-184): `"Unknown"` when the dropped-NaN
histogram has fewer than 3 points, otherwise `_identify_season` on its last
three values. -/
def seasonOfHistogram (hist : List ℚ) : String :=
  match hist.reverse with
  | c :: p1 :: p2 :: _ => identifySeason c p1 p2
  | _ => "Unknown"

/-- C7: on every histogram with at least 3 defined values, the current
season is decided by the last three values `(current = c, prev1, prev2)`
exactly as the claim states: Spring iff `c < 0` and increasing, Summer iff
`c > 0` and increasing, Autumn iff `c > 0` and decreasing, Winter iff
`c < 0` and decreasing, and Neutral in every other case. -/
theorem macd_season_classification (hist rest : List ℚ) (c p1 p2 : ℚ)
    (h : hist = rest ++ [p2, p1, c]) :
    (seasonOfHistogram hist = "Spring" ↔ c < 0 ∧ p2 < p1 ∧ p1 < c) ∧
    (seasonOfHistogram hist = "Summer" ↔ 0 < c ∧ p2 < p1 ∧ p1 < c) ∧
    (seasonOfHistogram hist = "Autumn" ↔ 0 < c ∧ p1 < p2 ∧ c < p1) ∧
    (seasonOfHistogram hist = "Winter" ↔ c < 0 ∧ p1 < p2 ∧ c < p1) ∧
    (seasonOfHistogram hist = "Neutral" ↔
      ¬(c < 0 ∧ p2 < p1 ∧ p1 < c) ∧ ¬(0 < c ∧ p2 < p1 ∧ p1 < c) ∧
      ¬(0 < c ∧ p1 < p2 ∧ c < p1) ∧ ¬(c < 0 ∧ p1 < p2 ∧ c < p1)) := by
  have hrev : hist.reverse = c :: p1 :: p2 :: rest.reverse := by
    rw [h, List.reverse_append]
    rfl
  have hs : seasonOfHistogram hist = identifySeason c p1 p2 := by
    unfold seasonOfHistogram
    rw [hrev]
  rw [hs]
  simp only [identifySeason]
  split_ifs with h1 h2 h3 h4 <;>
    refine ⟨?_, ?_, ?_, ?_, ?_⟩ <;> simp_all <;> intros <;> linarith

/-- Witness for C7 on the histogram `[1, -3, -2, -1]`: the last three
values are negative and increasing, so the season is Spring. -/
theorem macd_season_classification_witness :
    seasonOfHistogram [(1 : ℚ), -3, -2, -1] = "Spring" ↔
      (-1 : ℚ) < 0 ∧ (-3 : ℚ) < -2 ∧ (-2 : ℚ) < -1 :=
  (macd_season_classification [(1 : ℚ), -3, -2, -1] [1] (-1) (-2) (-3)
    rfl).1

/-! ## SMA delta (`src/agents/sma_delta_agent.py`,
`src/agents/sma_delta_combined_agent.py`)

`rolling(window=p).mean()` without `min_periods` is `NaN` until the window
fills, so the SMA is defined exactly from row `p - 1` on. -/

/-- `df['Close'].rolling(window=p).mean()` at row `i` (`none` = `NaN`). -/
def smaAt (closes : List ℚ) (p i : Nat) : Option ℚ :=
  if p ≤ i + 1 ∧ i < closes.length then some (rollingMean1 closes p i)
  else none

/-- `SMA_Delta = SMA_short - SMA_long` at row `i` (`NaN` when either SMA
is undefined). -/
def smaDeltaAt (closes : List ℚ) (s l i : Nat) : Option ℚ :=
  match smaAt closes s i, smaAt closes l i with
  | some a, some b => some (a - b)
  | _, _ => none

/-- `df['SMA_Delta'].dropna()`. -/
def smaDeltaSeries (closes : List ℚ) (s l : Nat) : List ℚ :=
  (List.range closes.length).filterMap (smaDeltaAt closes s l)

/-- The output dictionary of `SMADeltaAgent.process` (sma_delta_agent.py
lines 38-110) restricted to the fields the claims read.  `err` is the
early return for fewer than 2 defined delta points (its message,
`"Insufficient data (need at least … monthly points)"`, is not read by any
claim). -/
inductive SMADeltaOutput where
  | err
  | ok (sma_delta : ℚ) (sma_delta_trend : String)
      (is_delta_rising is_delta_positive is_favorable_for_buy
        is_rising_last_2_months : Bool)
  deriving Repr, DecidableEq

/-- `SMADeltaAgent.process`: current/previous delta are the last two
entries of the dropped-NaN delta series; trend and favorability come from
the `{positive, rising}` grid; `is_rising_last_2_months` re-checks the
last two delta values (equal to `is_rising` once at least two exist). -/
def smaDeltaProcess (s l : Nat) (closes : List ℚ) : SMADeltaOutput :=
  match (smaDeltaSeries closes s l).reverse with
  | current :: previous :: _ =>
    let is_rising : Bool := decide (previous < current)
    let is_positive : Bool := decide (0 < current)
    let ti : String × Bool :=
      if is_positive && is_rising then ("Positive and Rising", true)
      else if !is_positive && is_rising then ("Negative and Rising", true)
      else if is_positive && !is_rising then ("Positive and Falling", false)
      else ("Negative and Falling", false)
    .ok current ti.1 is_rising is_positive ti.2 (decide (previous < current))
  | _ => .err

/-- The summary dictionary of
`SMADeltaCombinedAgent._generate_comprehensive_summary`
(sma_delta_combined_agent.py lines 106-225) restricted to the fields the
claims read.  `err` is the early return (signal `"NEUTRAL"`). -/
inductive SMADeltaSummary where
  | err (signal : String)
  | ok (sma_delta : ℚ) (sma_delta_trend trend_strength : String)
      (is_delta_rising is_delta_positive is_favorable_for_buy : Bool)
      (signal : String)
  deriving Repr, DecidableEq

/-- The surfaced trading signal (present in both branches: the error
summary carries `"NEUTRAL"`). -/
def SMADeltaSummary.signal : SMADeltaSummary → String
  | .err sg => sg
  | .ok _ _ _ _ _ _ sg => sg

def SMADeltaSummary.is_delta_rising? : SMADeltaSummary → Option Bool
  | .err _ => none
  | .ok _ _ _ r _ _ _ => some r

def SMADeltaSummary.is_favorable_for_buy? : SMADeltaSummary → Option Bool
  | .err _ => none
  | .ok _ _ _ _ _ f _ => some f

def SMADeltaOutput.is_delta_rising? : SMADeltaOutput → Option Bool
  | .err => none
  | .ok _ _ r _ _ _ => some r

def SMADeltaOutput.is_favorable_for_buy? : SMADeltaOutput → Option Bool
  | .err => none
  | .ok _ _ _ _ f _ => some f

/-- `SMADeltaCombinedAgent._generate_comprehensive_summary` +
`_generate_signal`: current/previous delta are read from the last two
*rows* (`df.iloc[-1]`, `df.iloc[-2]`); in the guarded branch both are
defined (the defined deltas form a suffix of the rows), so the `getD 0`
default that stands in for `float(NaN)` is never taken;
`is_favorable := is_rising` (line 160) and the signal is `"BUY"` iff the
delta is rising, else `"SELL"` (lines 227-243). -/
def smaDeltaCombinedSummary (s l : Nat) (closes : List ℚ) : SMADeltaSummary :=
  if (smaDeltaSeries closes s l).length < 2 then .err "NEUTRAL"
  else
    let n := closes.length
    let current := (smaDeltaAt closes s l (n - 1)).getD 0
    let previous := (smaDeltaAt closes s l (n - 2)).getD 0
    let is_rising : Bool := decide (previous < current)
    let is_positive : Bool := decide (0 < current)
    let ts : String × String :=
      if is_positive && is_rising then
        ("Positive and Rising", "STRONGLY_BULLISH")
      else if !is_positive && is_rising then
        ("Negative but Rising", "BULLISH")
      else if is_positive && !is_rising then
        ("Positive but Falling", "BEARISH")
      else ("Negative and Falling", "STRONGLY_BEARISH")
    .ok current ts.1 ts.2 is_rising is_positive is_rising
      (if is_rising then "BUY" else "SELL")

/-- C8: with at least two defined SMA-delta values, both SMA-delta agents
surface `is_favorable_for_buy` equal to `is_delta_rising` (the sign of the
delta is irrelevant), and the combined agent's signal is `"BUY"` exactly
when the delta is rising and `"SELL"` otherwise — never `"NEUTRAL"`. -/
theorem sma_delta_favorable_iff_rising (closes : List ℚ) (s l : Nat)
    (h2 : 2 ≤ (smaDeltaSeries closes s l).length) :
    (smaDeltaProcess s l closes).is_favorable_for_buy? =
      (smaDeltaProcess s l closes).is_delta_rising? ∧
    (smaDeltaProcess s l closes).is_delta_rising? ≠ none ∧
    (smaDeltaCombinedSummary s l closes).is_favorable_for_buy? =
      (smaDeltaCombinedSummary s l closes).is_delta_rising? ∧
    ((smaDeltaCombinedSummary s l closes).signal = "BUY" ↔
      (smaDeltaCombinedSummary s l closes).is_delta_rising? = some true) ∧
    ((smaDeltaCombinedSummary s l closes).is_delta_rising? = some false →
      (smaDeltaCombinedSummary s l closes).signal = "SELL") ∧
    (smaDeltaCombinedSummary s l closes).signal ≠ "NEUTRAL" := by
  have hnlt : ¬(smaDeltaSeries closes s l).length < 2 := not_lt.mpr h2
  rcases hrev : (smaDeltaSeries closes s l).reverse with _ | ⟨cur, tl⟩
  · exfalso
    apply hnlt
    have : (smaDeltaSeries closes s l).reverse.length = 0 := by
      rw [hrev]; rfl
    rw [List.length_reverse] at this
    omega
  rcases tl with _ | ⟨prev, rest⟩
  · exfalso
    apply hnlt
    have : (smaDeltaSeries closes s l).reverse.length = 1 := by
      rw [hrev]; rfl
    rw [List.length_reverse] at this
    omega
  have hsimple :
      smaDeltaProcess s l closes =
        (let is_rising : Bool := decide (prev < cur)
         let is_positive : Bool := decide (0 < cur)
         let ti : String × Bool :=
           if is_positive && is_rising then ("Positive and Rising", true)
           else if !is_positive && is_rising then
             ("Negative and Rising", true)
           else if is_positive && !is_rising then
             ("Positive and Falling", false)
           else ("Negative and Falling", false)
         .ok cur ti.1 is_rising is_positive ti.2
           (decide (prev < cur))) := by
    unfold smaDeltaProcess
    rw [hrev]
  refine ⟨?_, ?_, ?_, ?_, ?_, ?_⟩
  · rw [hsimple]
    by_cases hr : prev < cur <;> by_cases hp : 0 < cur <;>
      simp [hr, hp, SMADeltaOutput.is_favorable_for_buy?,
        SMADeltaOutput.is_delta_rising?]
  · rw [hsimple]
    by_cases hr : prev < cur <;> by_cases hp : 0 < cur <;>
      simp [hr, hp, SMADeltaOutput.is_delta_rising?]
  · unfold smaDeltaCombinedSummary
    rw [if_neg hnlt]
    simp [SMADeltaSummary.is_favorable_for_buy?,
      SMADeltaSummary.is_delta_rising?]
  · unfold smaDeltaCombinedSummary
    rw [if_neg hnlt]
    by_cases hr : (smaDeltaAt closes s l (closes.length - 2)).getD 0 <
        (smaDeltaAt closes s l (closes.length - 1)).getD 0 <;>
      simp [hr, SMADeltaSummary.signal, SMADeltaSummary.is_delta_rising?]
  · unfold smaDeltaCombinedSummary
    rw [if_neg hnlt]
    by_cases hr : (smaDeltaAt closes s l (closes.length - 2)).getD 0 <
        (smaDeltaAt closes s l (closes.length - 1)).getD 0 <;>
      simp [hr, SMADeltaSummary.signal, SMADeltaSummary.is_delta_rising?]
  · unfold smaDeltaCombinedSummary
    rw [if_neg hnlt]
    by_cases hr : (smaDeltaAt closes s l (closes.length - 2)).getD 0 <
        (smaDeltaAt closes s l (closes.length - 1)).getD 0 <;>
      simp [hr, SMADeltaSummary.signal]

/-- Witness for C8 on the 3-point monthly series `[1, 2, 3]` with SMA
periods 1/2 (two defined deltas `1/2, 1/2`, not rising): the combined
signal is not `"NEUTRAL"`. -/
theorem sma_delta_favorable_iff_rising_witness :
    (smaDeltaCombinedSummary 1 2 [(1 : ℚ), 2, 3]).signal ≠ "NEUTRAL" :=
  (sma_delta_favorable_iff_rising [(1 : ℚ), 2, 3] 1 2
    (by norm_num [smaDeltaSeries, smaDeltaAt, smaAt, rollingMean1,
      windowAt, List.range_succ, List.filterMap_cons])).2.2.2.2.2

/-! ## Execution modes (`OrchestratorAgent.run_sub_agents_parallel` /
`run_sub_agents_sequential` / `run`)

Both modes call the same four agent `run` functions on the same inputs
(MACD/RSI/Supertrend on the daily frame, SMA-delta on the monthly frame),
so the per-agent results are a function of the agent's identity
(`SubAgentRuns`).  The parallel mode collects them with `as_completed`,
i.e. in an arbitrary completion order covering each agent once; the
results dictionary is keyed by agent identity, so the collection order
must not matter. -/

inductive AgentKey where
  | macd | rsi | sma | st
  deriving Repr, DecidableEq

/-- The four sub-agent results of one orchestration run (the value each
`future.result()` / sequential call produces). -/
structure SubAgentRuns where
  macd : MACDView
  rsi : RSIView
  sma : SMAView
  st : SupertrendView
  deriving Repr, DecidableEq

/-- The `results` dictionary under construction (`none` = key not yet
inserted). -/
structure ResultsDict where
  macd : Option MACDView
  rsi : Option RSIView
  sma : Option SMAView
  st : Option SupertrendView
  deriving Repr, DecidableEq

def emptyResults : ResultsDict := ⟨none, none, none, none⟩

/-- `results[agent_type] = result` for one collected task. -/
def insertResult (tasks : SubAgentRuns) (d : ResultsDict) (k : AgentKey) :
    ResultsDict :=
  match k with
  | .macd => { d with macd := some tasks.macd }
  | .rsi => { d with rsi := some tasks.rsi }
  | .sma => { d with sma := some tasks.sma }
  | .st => { d with st := some tasks.st }

/-- `run_sub_agents_parallel` (orchestrator_agent.py lines 42-91): insert
each task's result as it completes, in completion order `order`. -/
def runSubAgentsParallel (tasks : SubAgentRuns) (order : List AgentKey) :
    ResultsDict :=
  order.foldl (insertResult tasks) emptyResults

/-- `run_sub_agents_sequential` (orchestrator_agent.py lines 93-129):
fixed order MACD, RSI, SMA, Supertrend. -/
def runSubAgentsSequential (tasks : SubAgentRuns) : ResultsDict :=
  [AgentKey.macd, .rsi, .sma, .st].foldl (insertResult tasks) emptyResults

/-- `evaluate_buy_signal(sub_agent_results)`: the vote reads
`results["MACD"]`, `results["RSI"]`, `results["SMA"]`,
`results["Supertrend"]`.  The failed-view defaults stand in for a missing
key; under any complete collection order every key is present. -/
def evaluateResults (d : ResultsDict) : BuySignalEvaluation :=
  evaluate_buy_signal
    (d.macd.getD ⟨"failed", false, none, none⟩)
    (d.rsi.getD ⟨"failed", false, false, none, none, none⟩)
    (d.sma.getD ⟨"failed", none⟩)
    (d.st.getD ⟨"failed", none⟩)

/-- `OrchestratorAgent.run` (orchestrator_agent.py lines 239-271): run the
sub-agents in the requested mode, then evaluate the vote. -/
def orchestratorRun (tasks : SubAgentRuns) (order : List AgentKey)
    (mode : String) : BuySignalEvaluation :=
  let results :=
    if mode == "parallel" then runSubAgentsParallel tasks order
    else runSubAgentsSequential tasks
  evaluateResults results

lemma foldl_insert_macd (tasks : SubAgentRuns) (d : ResultsDict) :
    ∀ order : List AgentKey,
      (order.foldl (insertResult tasks) d).macd =
        if AgentKey.macd ∈ order then some tasks.macd else d.macd := by
  intro order
  induction order generalizing d with
  | nil => simp
  | cons k tl ih =>
    rw [List.foldl_cons, ih]
    cases k <;> by_cases htl : AgentKey.macd ∈ tl <;>
      simp [insertResult, htl]

lemma foldl_insert_rsi (tasks : SubAgentRuns) (d : ResultsDict) :
    ∀ order : List AgentKey,
      (order.foldl (insertResult tasks) d).rsi =
        if AgentKey.rsi ∈ order then some tasks.rsi else d.rsi := by
  intro order
  induction order generalizing d with
  | nil => simp
  | cons k tl ih =>
    rw [List.foldl_cons, ih]
    cases k <;> by_cases htl : AgentKey.rsi ∈ tl <;>
      simp [insertResult, htl]

lemma foldl_insert_sma (tasks : SubAgentRuns) (d : ResultsDict) :
    ∀ order : List AgentKey,
      (order.foldl (insertResult tasks) d).sma =
        if AgentKey.sma ∈ order then some tasks.sma else d.sma := by
  intro order
  induction order generalizing d with
  | nil => simp
  | cons k tl ih =>
    rw [List.foldl_cons, ih]
    cases k <;> by_cases htl : AgentKey.sma ∈ tl <;>
      simp [insertResult, htl]

lemma foldl_insert_st (tasks : SubAgentRuns) (d : ResultsDict) :
    ∀ order : List AgentKey,
      (order.foldl (insertResult tasks) d).st =
        if AgentKey.st ∈ order then some tasks.st else d.st := by
  intro order
  induction order generalizing d with
  | nil => simp
  | cons k tl ih =>
    rw [List.foldl_cons, ih]
    cases k <;> by_cases htl : AgentKey.st ∈ tl <;>
      simp [insertResult, htl]

/-- Complete collections yield the same dictionary regardless of order. -/
lemma runSubAgentsParallel_complete (tasks : SubAgentRuns)
    (order : List AgentKey)
    (h : order.Perm [AgentKey.macd, .rsi, .sma, .st]) :
    runSubAgentsParallel tasks order = runSubAgentsSequential tasks := by
  have hmem : ∀ k : AgentKey, k ∈ order := fun k =>
    h.mem_iff.mpr (by cases k <;> simp)
  have ha := foldl_insert_macd tasks emptyResults order
  have hb := foldl_insert_rsi tasks emptyResults order
  have hc := foldl_insert_sma tasks emptyResults order
  have hd := foldl_insert_st tasks emptyResults order
  rw [if_pos (hmem _)] at ha hb hc hd
  unfold runSubAgentsParallel runSubAgentsSequential
  rcases hf : order.foldl (insertResult tasks) emptyResults with ⟨a, b, c, d⟩
  rw [hf] at ha hb hc hd
  dsimp only at ha hb hc hd
  subst ha hb hc hd
  rfl

/-- C5: for a fixed set of sub-agent results, the orchestrator's parallel
mode — under every possible completion order of the four tasks — and its
sequential mode produce identical `BuySignalEvaluation`s (same individual
conditions, `conditions_met`, `buy_signal`, recommendation). -/
theorem orchestrator_modes_agree (tasks : SubAgentRuns)
    (order : List AgentKey)
    (h : order.Perm [AgentKey.macd, .rsi, .sma, .st]) :
    orchestratorRun tasks order "parallel" =
      orchestratorRun tasks order "sequential" := by
  have hp : orchestratorRun tasks order "parallel" =
      evaluateResults (runSubAgentsParallel tasks order) := rfl
  have hs : orchestratorRun tasks order "sequential" =
      evaluateResults (runSubAgentsSequential tasks) := rfl
  rw [hp, hs, runSubAgentsParallel_complete tasks order h]

/-- Witness for C5: a concrete completion order (Supertrend, SMA, RSI,
MACD) against the sequential order, with all four agents completed. -/
theorem orchestrator_modes_agree_witness :
    orchestratorRun
      ⟨⟨"completed", true, some "Spring", none⟩,
       ⟨"completed", true, true, some false, none, none⟩,
       ⟨"completed", some true⟩, ⟨"completed", some true⟩⟩
      [AgentKey.st, .sma, .rsi, .macd] "parallel" =
    orchestratorRun
      ⟨⟨"completed", true, some "Spring", none⟩,
       ⟨"completed", true, true, some false, none, none⟩,
       ⟨"completed", some true⟩, ⟨"completed", some true⟩⟩
      [AgentKey.st, .sma, .rsi, .macd] "sequential" :=
  orchestrator_modes_agree _ _ (by decide)

/-! ## Supertrend (`src/agents/supertrend_agent.py`, the variant the
orchestrator instantiates with `atr_length=10, multiplier=3.0`)

`calculate_atr`: `TR[0] = High - Low` (the two previous-close terms are
`NaN` and pandas' row-wise `max` skips them); for `i ≥ 1`,
`TR[i] = max(High-Low, |High - prev Close|, |Low - prev Close|)`;
`ATR = TR.rolling(window=L).mean()` (`NaN` until the window fills).

`calculate_supertrend` is the sequential band ratchet of lines 48-94,
modelled as a state machine `{upper, lower, green}` advanced bar by bar;
`green = true` stands for signal `'Green'`, the initialized value is
`'Red'`.  Comparisons against a `NaN` band are `False`; `min`/`max` mirror
Python's builtins (their mixed-`NaN` case is unreachable: band adjustment
is guarded by a comparison that forces the previous band, and hence the
current basic band, to be defined). -/

def trAux (prev : Bar) : List Bar → List ℚ
  | [] => []
  | b :: t =>
    max (b.high - b.low) (max |b.high - prev.close| |b.low - prev.close|) ::
      trAux b t

def trList : List Bar → List ℚ
  | [] => []
  | b :: t => (b.high - b.low) :: trAux b t

/-- `ATR` at row `i` (`none` = `NaN` while the window is unfilled). -/
def atrAt (bars : List Bar) (L i : Nat) : Option ℚ :=
  if L ≤ i + 1 ∧ i < bars.length then some (rollingMean1 (trList bars) L i)
  else none

def barAt (bars : List Bar) (i : Nat) : Bar := bars.getD i ⟨0, 0, 0⟩

def closeAt (bars : List Bar) (i : Nat) : ℚ := (barAt bars i).close

/-- Basic upper band `(High+Low)/2 + multiplier*ATR`. -/
def basicUpperAt (bars : List Bar) (L : Nat) (m : ℚ) (i : Nat) : Option ℚ :=
  (atrAt bars L i).map fun a =>
    ((barAt bars i).high + (barAt bars i).low) / 2 + m * a

/-- Basic lower band `(High+Low)/2 - multiplier*ATR`. -/
def basicLowerAt (bars : List Bar) (L : Nat) (m : ℚ) (i : Nat) : Option ℚ :=
  (atrAt bars L i).map fun a =>
    ((barAt bars i).high + (barAt bars i).low) / 2 - m * a

/-- Per-bar Supertrend state: the final (ratcheted) bands and the signal
(`green = true` ↔ `'Green'`). -/
structure STState where
  upper : Option ℚ
  lower : Option ℚ
  green : Bool
  deriving Repr, DecidableEq

/-- `Close <= band` with a `NaN` band: `False`. -/
def nanLEb (x : ℚ) (o : Option ℚ) : Bool :=
  match o with
  | some u => decide (x ≤ u)
  | none => false

/-- `Close >= band` with a `NaN` band: `False`. -/
def nanGEb (x : ℚ) (o : Option ℚ) : Bool :=
  match o with
  | some u => decide (u ≤ x)
  | none => false

/-- `Close > band` with a `NaN` band: `False`. -/
def nanGTb (x : ℚ) (o : Option ℚ) : Bool :=
  match o with
  | some u => decide (u < x)
  | none => false

/-- `Close < band` with a `NaN` band: `False`. -/
def nanLTb (x : ℚ) (o : Option ℚ) : Bool :=
  match o with
  | some u => decide (x < u)
  | none => false

/-- Python's `min` on two band cells (both defined whenever reached). -/
def pymin (a b : Option ℚ) : Option ℚ :=
  match a, b with
  | some x, some y => some (min x y)
  | _, _ => a

/-- Python's `max` on two band cells (both defined whenever reached). -/
def pymax (a b : Option ℚ) : Option ℚ :=
  match a, b with
  | some x, some y => some (max x y)
  | _, _ => a

/-- The band/signal recurrence of `calculate_supertrend` (lines 70-92):
row 0 keeps its basic bands and the initialized `'Red'`; row `i+1` ratchets
the upper band down (when the previous close was at or below the previous
upper band) and the lower band up (when at or above the previous lower
band), then flips to Green when the close crosses above the previous upper
band, to Red when it crosses below the previous lower band, and otherwise
keeps the previous signal. -/
def stRec (bars : List Bar) (L : Nat) (m : ℚ) : Nat → STState
  | 0 => ⟨basicUpperAt bars L m 0, basicLowerAt bars L m 0, false⟩
  | i + 1 =>
    let prev := stRec bars L m i
    let pc := closeAt bars i
    let c := closeAt bars (i + 1)
    let upper :=
      if nanLEb pc prev.upper then
        pymin (basicUpperAt bars L m (i + 1)) prev.upper
      else basicUpperAt bars L m (i + 1)
    let lower :=
      if nanGEb pc prev.lower then
        pymax (basicLowerAt bars L m (i + 1)) prev.lower
      else basicLowerAt bars L m (i + 1)
    let green :=
      if nanGTb c prev.upper then true
      else if nanLTb c prev.lower then false
      else prev.green
    ⟨upper, lower, green⟩

/-- The `Supertrend_Signal` column (`true` = `'Green'`). -/
def supertrendSignals (bars : List Bar) (L : Nat) (m : ℚ) : List Bool :=
  (List.range bars.length).map fun i => (stRec bars L m i).green

/-- 22 daily bars with strictly increasing closes `1, 2, …, 22`; every bar
has `high = low = close` except bar 19, whose intraday range spikes
(`high = 2000`, `low = 0`) while its close (20) stays on the increasing
path. -/
def spikeBars : List Bar :=
  [⟨1, 1, 1⟩, ⟨2, 2, 2⟩, ⟨3, 3, 3⟩, ⟨4, 4, 4⟩, ⟨5, 5, 5⟩, ⟨6, 6, 6⟩,
   ⟨7, 7, 7⟩, ⟨8, 8, 8⟩, ⟨9, 9, 9⟩, ⟨10, 10, 10⟩, ⟨11, 11, 11⟩,
   ⟨12, 12, 12⟩, ⟨13, 13, 13⟩, ⟨14, 14, 14⟩, ⟨15, 15, 15⟩, ⟨16, 16, 16⟩,
   ⟨17, 17, 17⟩, ⟨18, 18, 18⟩, ⟨19, 19, 19⟩, ⟨2000, 0, 20⟩, ⟨21, 21, 21⟩,
   ⟨22, 22, 22⟩]

/-- A bar whose high, low and close coincide. -/
def mk3 (c : ℚ) : Bar := ⟨c, c, c⟩

/-- 20 bars with `high = low = close` and strictly increasing closes
`2^19 - 2^(19-i)`, converging geometrically towards `2^19`. -/
def convergingBars : List Bar :=
  [mk3 0, mk3 262144, mk3 393216, mk3 458752, mk3 491520, mk3 507904,
   mk3 516096, mk3 520192, mk3 522240, mk3 523264, mk3 523776, mk3 524032,
   mk3 524160, mk3 524224, mk3 524256, mk3 524272, mk3 524280, mk3 524284,
   mk3 524286, mk3 524287]

/-- Reading the signal column at a valid row yields that row's state. -/
lemma supertrendSignals_get? (bars : List Bar) (L : Nat) (m : ℚ) (i : Nat)
    (h : i < bars.length) :
    (supertrendSignals bars L m).get? i = some (stRec bars L m i).green := by
  simp [supertrendSignals, List.get?_eq_getElem?, List.getElem?_map,
    List.getElem?_range, h]

set_option maxHeartbeats 2000000 in
set_option maxRecDepth 8000 in
/-- C9 counterexample, at the orchestrator's parameters
`atr_length = 10`, `multiplier = 3`:
1. `spikeBars` has strictly monotonically increasing closes, its signal
   turns Green at bar 12, yet bar 20 is Red again — once-Green does not
   persist;
2. `convergingBars` has strictly monotonically increasing closes, yet its
   signal is still Red at the last bar — it never settles to Green. -/
theorem supertrend_increasing_counterexample :
    List.Chain' (· < ·) (spikeBars.map Bar.close) ∧
    (supertrendSignals spikeBars 10 3).get? 12 = some true ∧
    (supertrendSignals spikeBars 10 3).get? 20 = some false ∧
    List.Chain' (· < ·) (convergingBars.map Bar.close) ∧
    (supertrendSignals convergingBars 10 3).get? 19 = some false := by
  refine ⟨?_, ?_, ?_, ?_, ?_⟩
  · norm_num [spikeBars]
  · rw [supertrendSignals_get? spikeBars 10 3 12 (by norm_num [spikeBars])]
    have h12 : (stRec spikeBars 10 3 12).green = true := by
      norm_num [spikeBars, stRec, basicUpperAt, basicLowerAt, atrAt, barAt,
        closeAt, rollingMean1, windowAt, trList, trAux, nanLEb, nanGEb,
        nanGTb, nanLTb, pymin, pymax]
    rw [h12]
  · rw [supertrendSignals_get? spikeBars 10 3 20 (by norm_num [spikeBars])]
    have h20 : (stRec spikeBars 10 3 20).green = false := by
      norm_num [spikeBars, stRec, basicUpperAt, basicLowerAt, atrAt, barAt,
        closeAt, rollingMean1, windowAt, trList, trAux, nanLEb, nanGEb,
        nanGTb, nanLTb, pymin, pymax]
    rw [h20]
  · norm_num [convergingBars, mk3]
  · rw [supertrendSignals_get? convergingBars 10 3 19
      (by norm_num [convergingBars])]
    have h19 : (stRec convergingBars 10 3 19).green = false := by
      norm_num [convergingBars, mk3, stRec, basicUpperAt, basicLowerAt,
        atrAt, barAt, closeAt, rollingMean1, windowAt, trList, trAux,
        nanLEb, nanGEb, nanGTb, nanLTb, pymin, pymax]
    rw [h19]

/-! ### Amended C9: series whose bars have `high = low = close`

With flat bars (`mk3`) and strictly increasing closes, the final lower
band never exceeds the current close, so a Green signal can never flip
back to Red; and on an arithmetic close series every sufficiently long run
ends Green. -/

def flatBars (closes : List ℚ) : List Bar := closes.map mk3

/-- Close at row `i` (`getD` default 0, used only beyond the series). -/
def cAt (closes : List ℚ) (i : Nat) : ℚ := closes.getD i 0

lemma stRec_zero (bars : List Bar) (L : Nat) (m : ℚ) :
    stRec bars L m 0 =
      ⟨basicUpperAt bars L m 0, basicLowerAt bars L m 0, false⟩ := rfl

lemma stRec_succ (bars : List Bar) (L : Nat) (m : ℚ) (i : Nat) :
    stRec bars L m (i + 1) =
      ⟨if nanLEb (closeAt bars i) (stRec bars L m i).upper then
          pymin (basicUpperAt bars L m (i + 1)) (stRec bars L m i).upper
        else basicUpperAt bars L m (i + 1),
        if nanGEb (closeAt bars i) (stRec bars L m i).lower then
          pymax (basicLowerAt bars L m (i + 1)) (stRec bars L m i).lower
        else basicLowerAt bars L m (i + 1),
        if nanGTb (closeAt bars (i + 1)) (stRec bars L m i).upper then true
        else if nanLTb (closeAt bars (i + 1)) (stRec bars L m i).lower then
          false
        else (stRec bars L m i).green⟩ := rfl

lemma barAt_flat (closes : List ℚ) (i : Nat) :
    barAt (flatBars closes) i = mk3 (cAt closes i) := by
  unfold barAt flatBars cAt
  rw [List.getD_eq_getElem?_getD, List.getD_eq_getElem?_getD,
    List.getElem?_map]
  cases closes[i]? <;> rfl

lemma closeAt_flat (closes : List ℚ) (i : Nat) :
    closeAt (flatBars closes) i = cAt closes i := by
  rw [closeAt, barAt_flat]
  rfl

lemma length_flatBars (closes : List ℚ) :
    (flatBars closes).length = closes.length := List.length_map _ _

lemma trAux_flat (t : List ℚ) : ∀ p : ℚ,
    trAux (mk3 p) (t.map mk3) =
      List.zipWith (fun a b => |a - b|) t (p :: t) := by
  induction t with
  | nil => intro p; rfl
  | cons a t' ih =>
    intro p
    show (max (a - a) (max |a - p| |a - p|)) :: trAux (mk3 a) (t'.map mk3) =
      |a - p| :: List.zipWith (fun a b => |a - b|) t' (a :: t')
    rw [ih a, sub_self, max_self, max_eq_right (abs_nonneg _)]

lemma trList_flat_cons (c : ℚ) (t : List ℚ) :
    trList (flatBars (c :: t)) =
      0 :: List.zipWith (fun a b => |a - b|) t (c :: t) := by
  show (c - c) :: trAux (mk3 c) (t.map mk3) = _
  rw [trAux_flat t c, sub_self]

lemma trList_flat_nonneg (closes : List ℚ) :
    ∀ x ∈ trList (flatBars closes), 0 ≤ x := by
  intro x hx
  cases closes with
  | nil => simp [flatBars, trList] at hx
  | cons c t =>
    rw [trList_flat_cons] at hx
    rcases List.mem_cons.mp hx with h | h
    · simp [h]
    · exact forall_mem_zipWith _ _ (fun a _ b _ => abs_nonneg _) x h

lemma atrAt_flat_nonneg (closes : List ℚ) (L i : Nat) {a : ℚ}
    (h : atrAt (flatBars closes) L i = some a) : 0 ≤ a := by
  unfold atrAt at h
  split at h
  · cases h
    exact rollingMean1_nonneg (trList_flat_nonneg closes) L i
  · cases h

lemma atrAt_some_lt {bars : List Bar} {L i : Nat} {a : ℚ}
    (h : atrAt bars L i = some a) : i < bars.length := by
  unfold atrAt at h
  split at h
  next hc => exact hc.2
  next => cases h

lemma basicLowerAt_flat_le (closes : List ℚ) (L : Nat) {m : ℚ}
    (hm : 0 ≤ m) (i : Nat) {w : ℚ}
    (h : basicLowerAt (flatBars closes) L m i = some w) :
    w ≤ cAt closes i := by
  unfold basicLowerAt at h
  cases ha : atrAt (flatBars closes) L i with
  | none => rw [ha] at h; cases h
  | some a =>
    rw [ha] at h
    cases h
    rw [barAt_flat]
    have hanneg : 0 ≤ a := atrAt_flat_nonneg closes L i ha
    have : (mk3 (cAt closes i)).high = cAt closes i := rfl
    have : ((cAt closes i) + (cAt closes i)) / 2 = cAt closes i := by ring
    show ((mk3 (cAt closes i)).high + (mk3 (cAt closes i)).low) / 2 -
      m * a ≤ cAt closes i
    show ((cAt closes i) + (cAt closes i)) / 2 - m * a ≤ cAt closes i
    nlinarith

lemma basicLowerAt_some_lt {bars : List Bar} {L : Nat} {m : ℚ} {i : Nat}
    {w : ℚ} (h : basicLowerAt bars L m i = some w) : i < bars.length := by
  unfold basicLowerAt at h
  cases ha : atrAt bars L i with
  | none => rw [ha] at h; cases h
  | some a => exact atrAt_some_lt ha

/-- With flat bars and strictly increasing closes, the final lower band at
any row never exceeds that row's close. -/
lemma stRec_lower_le_close (closes : List ℚ) (L : Nat) {m : ℚ}
    (hm : 0 ≤ m)
    (hmono : ∀ k, k + 1 < closes.length → cAt closes k < cAt closes (k + 1))
    (i : Nat) :
    ∀ w, (stRec (flatBars closes) L m i).lower = some w →
      w ≤ cAt closes i := by
  cases i with
  | zero =>
    intro w hw
    rw [stRec_zero] at hw
    exact basicLowerAt_flat_le closes L hm 0 hw
  | succ i =>
    intro w hw
    rw [stRec_succ] at hw
    dsimp only at hw
    cases hl : (stRec (flatBars closes) L m i).lower with
    | none =>
      rw [hl] at hw
      simp only [nanGEb, Bool.false_eq_true, if_false] at hw
      exact basicLowerAt_flat_le closes L hm (i + 1) hw
    | some w' =>
      rw [hl] at hw
      simp only [nanGEb, decide_eq_true_eq] at hw
      by_cases hc : w' ≤ closeAt (flatBars closes) i
      · rw [if_pos hc] at hw
        cases hbl : basicLowerAt (flatBars closes) L m (i + 1) with
        | none => rw [hbl] at hw; cases hw
        | some blv =>
          rw [hbl] at hw
          simp only [pymax] at hw
          cases hw
          have hlen : i + 1 < closes.length := by
            have := basicLowerAt_some_lt hbl
            rwa [length_flatBars] at this
          have h1 : blv ≤ cAt closes (i + 1) :=
            basicLowerAt_flat_le closes L hm (i + 1) hbl
          have h2 : w' ≤ cAt closes i := by rwa [closeAt_flat] at hc
          have h3 : cAt closes i < cAt closes (i + 1) := hmono i hlen
          exact max_le h1 (by linarith)
      · rw [if_neg hc] at hw
        exact basicLowerAt_flat_le closes L hm (i + 1) hw

/-- With flat bars and strictly increasing closes, a Green signal persists
to the next bar: the crossing-below test compares the close against a
lower band that sits at or below the previous close. -/
lemma stRec_green_step (closes : List ℚ) (L : Nat) {m : ℚ} (hm : 0 ≤ m)
    (hmono : ∀ k, k + 1 < closes.length → cAt closes k < cAt closes (k + 1))
    (i : Nat) (hi : i + 1 < closes.length)
    (hg : (stRec (flatBars closes) L m i).green = true) :
    (stRec (flatBars closes) L m (i + 1)).green = true := by
  rw [stRec_succ]
  dsimp only
  by_cases h1 :
      nanGTb (closeAt (flatBars closes) (i + 1))
        (stRec (flatBars closes) L m i).upper = true
  · rw [if_pos h1]
  · rw [if_neg h1]
    have h2 :
        nanLTb (closeAt (flatBars closes) (i + 1))
          (stRec (flatBars closes) L m i).lower = false := by
      cases hl : (stRec (flatBars closes) L m i).lower with
      | none => rfl
      | some w' =>
        simp only [nanLTb, decide_eq_false_iff_not, not_lt]
        have hw' : w' ≤ cAt closes i :=
          stRec_lower_le_close closes L hm hmono i w' hl
        have h3 : cAt closes i < cAt closes (i + 1) := hmono i hi
        rw [closeAt_flat]
        linarith
    rw [h2]
    simp only [Bool.false_eq_true, if_false]
    exact hg

/-- With flat bars and strictly increasing closes, once a bar is Green
every later bar within the series is Green. -/
lemma stRec_green_persists (closes : List ℚ) (L : Nat) {m : ℚ}
    (hm : 0 ≤ m)
    (hmono : ∀ k, k + 1 < closes.length → cAt closes k < cAt closes (k + 1))
    (i j : Nat) (hij : i ≤ j) (hj : j < closes.length)
    (hg : (stRec (flatBars closes) L m i).green = true) :
    (stRec (flatBars closes) L m j).green = true := by
  induction j, hij using Nat.le_induction with
  | base => exact hg
  | succ j hij ih =>
    exact stRec_green_step closes L hm hmono j hj
      (ih (lt_trans (Nat.lt_succ_self j) hj))

/-! ### Arithmetic close series: `closes i = c0 + i*d` -/

def arithCloses (c0 d : ℚ) (n : Nat) : List ℚ :=
  (List.range n).map fun i : Nat => c0 + (i : ℚ) * d

lemma length_arithCloses (c0 d : ℚ) (n : Nat) :
    (arithCloses c0 d n).length = n := by
  simp [arithCloses]

lemma cAt_arith (c0 d : ℚ) {n i : Nat} (h : i < n) :
    cAt (arithCloses c0 d n) i = c0 + i * d := by
  rw [cAt, arithCloses, List.getD_eq_getElem?_getD, List.getElem?_map,
    List.getElem?_range h]
  rfl

lemma arithCloses_mono (c0 d : ℚ) (n : Nat) (hd : 0 < d) :
    ∀ k, k + 1 < (arithCloses c0 d n).length →
      cAt (arithCloses c0 d n) k < cAt (arithCloses c0 d n) (k + 1) := by
  intro k hk
  rw [length_arithCloses] at hk
  rw [cAt_arith c0 d (lt_trans (Nat.lt_succ_self k) hk), cAt_arith c0 d hk]
  have h1 : (k : ℚ) < ((k + 1 : ℕ) : ℚ) := by push_cast; linarith
  nlinarith

lemma arithCloses_succ (c0 d : ℚ) (n : Nat) :
    arithCloses c0 d (n + 1) = c0 :: arithCloses (c0 + d) d n := by
  unfold arithCloses
  rw [List.range_succ_eq_map]
  simp only [List.map_cons, List.map_map, Nat.cast_zero, zero_mul, add_zero]
  congr 1
  apply List.map_congr_left
  intro a _
  show c0 + ((a + 1 : ℕ) : ℚ) * d = c0 + d + a * d
  push_cast
  ring

lemma zip_abs_arith (d : ℚ) (hd : 0 ≤ d) :
    ∀ (k : Nat) (c0 : ℚ),
      List.zipWith (fun a b => |a - b|) (arithCloses (c0 + d) d k)
        (c0 :: arithCloses (c0 + d) d k) = List.replicate k d := by
  intro k
  induction k with
  | zero => intro c0; rfl
  | succ k ih =>
    intro c0
    rw [arithCloses_succ (c0 + d) d k, List.zipWith_cons_cons, ih (c0 + d),
      List.replicate_succ]
    congr 1
    rw [show c0 + d - c0 = d by ring]
    exact abs_of_nonneg hd

lemma trList_flat_arith (c0 d : ℚ) (hd : 0 ≤ d) (n : Nat) :
    trList (flatBars (arithCloses c0 d (n + 1))) =
      0 :: List.replicate n d := by
  rw [arithCloses_succ, trList_flat_cons, zip_abs_arith d hd n c0]

lemma windowAt_zero_replicate_full (d : ℚ) {K L j : Nat}
    (h1 : L ≤ j) (h2 : j ≤ K) :
    windowAt (0 :: List.replicate K d) L j = List.replicate L d := by
  unfold windowAt
  have hj1 : j + 1 - L = (j - L) + 1 := by omega
  rw [List.take_succ_cons, List.take_replicate, hj1, List.drop_succ_cons,
    List.drop_replicate]
  congr 1
  omega

lemma windowAt_zero_replicate_boundary (d : ℚ) {K L : Nat}
    (hL : 1 ≤ L) (hK : L - 1 ≤ K) :
    windowAt (0 :: List.replicate K d) L (L - 1) =
      0 :: List.replicate (L - 1) d := by
  unfold windowAt
  have h0 : L - 1 + 1 - L = 0 := by omega
  rw [h0, List.drop_zero, List.take_succ_cons, List.take_replicate]
  congr 2
  omega

lemma atr_arith_full (c0 d : ℚ) (hd : 0 ≤ d) {L n j : Nat}
    (hL : 1 ≤ L) (hj : L ≤ j) (hjn : j < n) :
    atrAt (flatBars (arithCloses c0 d n)) L j = some d := by
  obtain ⟨K, rfl⟩ : ∃ K, n = K + 1 := ⟨n - 1, by omega⟩
  unfold atrAt
  have hlen : j < (flatBars (arithCloses c0 d (K + 1))).length := by
    rw [length_flatBars, length_arithCloses]
    exact hjn
  rw [if_pos ⟨by omega, hlen⟩]
  congr 1
  unfold rollingMean1
  rw [trList_flat_arith c0 d hd K,
    windowAt_zero_replicate_full d hj (by omega)]
  rw [List.sum_replicate, List.length_replicate, nsmul_eq_mul]
  exact mul_div_cancel_left₀ d (by exact_mod_cast (by omega : L ≠ 0))

lemma atr_arith_boundary (c0 d : ℚ) (hd : 0 ≤ d) {L n : Nat}
    (hL : 1 ≤ L) (hn : L - 1 < n) :
    atrAt (flatBars (arithCloses c0 d n)) L (L - 1) =
      some (((L - 1 : ℕ) : ℚ) * d / (L : ℚ)) := by
  obtain ⟨K, rfl⟩ : ∃ K, n = K + 1 := ⟨n - 1, by omega⟩
  unfold atrAt
  have hlen : L - 1 < (flatBars (arithCloses c0 d (K + 1))).length := by
    rw [length_flatBars, length_arithCloses]
    exact hn
  rw [if_pos ⟨by omega, hlen⟩]
  congr 1
  unfold rollingMean1
  rw [trList_flat_arith c0 d hd K,
    windowAt_zero_replicate_boundary d hL (by omega)]
  have hsum : (0 :: List.replicate (L - 1) d).sum = ((L - 1 : ℕ) : ℚ) * d := by
    rw [List.sum_cons, List.sum_replicate, nsmul_eq_mul, zero_add]
  have hlen : ((0 :: List.replicate (L - 1) d).length : ℚ) = (L : ℚ) := by
    rw [List.length_cons, List.length_replicate]
    exact_mod_cast congrArg (Nat.cast : Nat → ℚ) (by omega : L - 1 + 1 = L)
  rw [hsum, hlen]

lemma basicUpper_arith_full (c0 d m : ℚ) (hd : 0 ≤ d) {L n j : Nat}
    (hL : 1 ≤ L) (hj : L ≤ j) (hjn : j < n) :
    basicUpperAt (flatBars (arithCloses c0 d n)) L m j =
      some (c0 + j * d + m * d) := by
  unfold basicUpperAt
  rw [atr_arith_full c0 d hd hL hj hjn, Option.map_some', barAt_flat,
    cAt_arith c0 d hjn]
  congr 1
  show (c0 + j * d + (c0 + j * d)) / 2 + m * d = c0 + j * d + m * d
  ring

lemma basicUpper_arith_boundary (c0 d m : ℚ) (hd : 0 ≤ d) {L n : Nat}
    (hL : 1 ≤ L) (hn : L - 1 < n) :
    basicUpperAt (flatBars (arithCloses c0 d n)) L m (L - 1) =
      some (c0 + ((L - 1 : ℕ) : ℚ) * d +
        m * (((L - 1 : ℕ) : ℚ) * d / (L : ℚ))) := by
  unfold basicUpperAt
  rw [atr_arith_boundary c0 d hd hL hn, Option.map_some', barAt_flat,
    cAt_arith c0 d hn]
  congr 1
  show (c0 + ((L - 1 : ℕ) : ℚ) * d + (c0 + ((L - 1 : ℕ) : ℚ) * d)) / 2 +
      m * (((L - 1 : ℕ) : ℚ) * d / (L : ℚ)) = _
  ring

lemma basic_bands_none {bars : List Bar} {L : Nat} {m : ℚ} {i : Nat}
    (h : ¬L ≤ i + 1) :
    basicUpperAt bars L m i = none ∧ basicLowerAt bars L m i = none := by
  have ha : atrAt bars L i = none := by
    unfold atrAt
    rw [if_neg (by tauto)]
  refine ⟨?_, ?_⟩
  · unfold basicUpperAt
    rw [ha]
    rfl
  · unfold basicLowerAt
    rw [ha]
    rfl

/-- Before the ATR window can fill, both final bands are still `NaN`. -/
lemma stRec_bands_none (bars : List Bar) (L : Nat) (m : ℚ) :
    ∀ j, j + 2 ≤ L →
      (stRec bars L m j).upper = none ∧ (stRec bars L m j).lower = none := by
  intro j
  induction j with
  | zero =>
    intro h
    rw [stRec_zero]
    exact basic_bands_none (by omega)
  | succ j ih =>
    intro h
    have hj := ih (by omega)
    rw [stRec_succ]
    dsimp only
    rw [hj.1, hj.2]
    simp only [nanLEb, nanGEb, Bool.false_eq_true, if_false]
    exact basic_bands_none (by omega)

/-- At row `L - 1` (the first row with a defined ATR) the final upper band
is still the basic upper band: no ratchet has fired yet. -/
lemma stRec_upper_init (bars : List Bar) (L : Nat) (m : ℚ) (hL : 1 ≤ L) :
    (stRec bars L m (L - 1)).upper = basicUpperAt bars L m (L - 1) := by
  rcases Nat.lt_or_ge L 2 with h | h
  · have hL1 : L = 1 := by omega
    subst hL1
    rw [stRec_zero]
  · obtain ⟨k, hk⟩ : ∃ k, L - 1 = k + 1 := ⟨L - 2, by omega⟩
    rw [hk, stRec_succ]
    dsimp only
    have hnone := stRec_bands_none bars L m k (by omega)
    rw [hnone.1]
    simp only [nanLEb, Bool.false_eq_true, if_false]

/-- The pre-Green invariant on an arithmetic flat series: from row `L - 1`
on, each row is either already Green or still carries the initial upper
band `U = c0 + (L-1)d + m·(L-1)d/L` with its close at or below `U`. -/
lemma stRec_arith_invariant (c0 d m : ℚ) (L n : Nat) (hL : 1 ≤ L)
    (hd : 0 < d) (hm : 0 < m) :
    ∀ i, L - 1 ≤ i → i < n →
      (stRec (flatBars (arithCloses c0 d n)) L m i).green = true ∨
      ((stRec (flatBars (arithCloses c0 d n)) L m i).upper =
          some (c0 + ((L - 1 : ℕ) : ℚ) * d +
            m * (((L - 1 : ℕ) : ℚ) * d / (L : ℚ))) ∧
        c0 + (i : ℚ) * d ≤
          c0 + ((L - 1 : ℕ) : ℚ) * d +
            m * (((L - 1 : ℕ) : ℚ) * d / (L : ℚ))) := by
  have hLQ : (0 : ℚ) < (L : ℚ) := by exact_mod_cast (by omega : 0 < L)
  have hL1cast : ((L - 1 : ℕ) : ℚ) ≤ (L : ℚ) := by
    exact_mod_cast Nat.sub_le L 1
  have hdivnn : 0 ≤ ((L - 1 : ℕ) : ℚ) * d / (L : ℚ) := by positivity
  have hdivle : ((L - 1 : ℕ) : ℚ) * d / (L : ℚ) ≤ d := by
    rw [div_le_iff₀ hLQ]
    nlinarith
  intro i hi
  induction i, hi using Nat.le_induction with
  | base =>
    intro hbase
    right
    constructor
    · rw [stRec_upper_init _ _ _ hL,
        basicUpper_arith_boundary c0 d m hd.le hL hbase]
    · nlinarith
  | succ i hi ih =>
    intro hsn
    have hin : i < n := by omega
    rcases ih hin with hgreen | ⟨hup, hci⟩
    · left
      have hlen : i + 1 < (arithCloses c0 d n).length := by
        rw [length_arithCloses]
        exact hsn
      exact stRec_green_step (arithCloses c0 d n) L hm.le
        (arithCloses_mono c0 d n hd) i hlen hgreen
    · by_cases hcross :
        c0 + ((L - 1 : ℕ) : ℚ) * d +
            m * (((L - 1 : ℕ) : ℚ) * d / (L : ℚ)) <
          c0 + ((i + 1 : ℕ) : ℚ) * d
      · left
        rw [stRec_succ]
        dsimp only
        have hgt :
            nanGTb (closeAt (flatBars (arithCloses c0 d n)) (i + 1))
              (stRec (flatBars (arithCloses c0 d n)) L m i).upper = true := by
          rw [hup]
          simp only [nanGTb, decide_eq_true_eq]
          rw [closeAt_flat, cAt_arith c0 d hsn]
          exact_mod_cast hcross
        rw [hgt]
        simp
      · push_neg at hcross
        right
        have hcond :
            nanLEb (closeAt (flatBars (arithCloses c0 d n)) i)
              (stRec (flatBars (arithCloses c0 d n)) L m i).upper = true := by
          rw [hup]
          simp only [nanLEb, decide_eq_true_eq]
          rw [closeAt_flat, cAt_arith c0 d hin]
          exact hci
        constructor
        · rw [stRec_succ]
          dsimp only
          rw [hcond]
          simp only [if_true]
          rw [hup, basicUpper_arith_full c0 d m hd.le hL (by omega) hsn]
          simp only [pymin]
          congr 1
          apply min_eq_right
          have hiL : ((L - 1 : ℕ) : ℚ) ≤ ((i + 1 : ℕ) : ℚ) := by
            exact_mod_cast (by omega : L - 1 ≤ i + 1)
          have h1 : ((L - 1 : ℕ) : ℚ) * d ≤ ((i + 1 : ℕ) : ℚ) * d :=
            mul_le_mul_of_nonneg_right hiL hd.le
          have h2 : m * (((L - 1 : ℕ) : ℚ) * d / (L : ℚ)) ≤ m * d :=
            mul_le_mul_of_nonneg_left hdivle hm.le
          push_cast at h1 ⊢
          linarith
        · exact_mod_cast hcross

/-- On an arithmetic flat series, every run of at least
`L + (⌈m⌉.toNat + 1)` bars ends with a Green signal. -/
lemma stRec_arith_eventually_green (c0 d m : ℚ) (L : Nat) (hL : 1 ≤ L)
    (hd : 0 < d) (hm : 0 < m) :
    ∀ n, L + (⌈m⌉.toNat + 1) ≤ n →
      (stRec (flatBars (arithCloses c0 d n)) L m (n - 1)).green = true := by
  intro n hn
  have hi0n : L - 1 + (⌈m⌉.toNat + 1) < n := by omega
  have hgi0 :
      (stRec (flatBars (arithCloses c0 d n)) L m
        (L - 1 + (⌈m⌉.toNat + 1))).green = true := by
    rcases stRec_arith_invariant c0 d m L n hL hd hm
        (L - 1 + (⌈m⌉.toNat + 1)) (by omega) hi0n with hg | ⟨_, hci⟩
    · exact hg
    · exfalso
      have hLQ : (0 : ℚ) < (L : ℚ) := by exact_mod_cast (by omega : 0 < L)
      have hL1cast : ((L - 1 : ℕ) : ℚ) ≤ (L : ℚ) := by
        exact_mod_cast Nat.sub_le L 1
      have hdivle : ((L - 1 : ℕ) : ℚ) * d / (L : ℚ) ≤ d := by
        rw [div_le_iff₀ hLQ]
        nlinarith
      have hceil : m ≤ ((⌈m⌉.toNat : ℕ) : ℚ) := by
        have h1 : m ≤ (⌈m⌉ : ℚ) := Int.le_ceil m
        have h2 : (⌈m⌉ : ℤ) ≤ (⌈m⌉.toNat : ℤ) := Int.self_le_toNat _
        have h3 : ((⌈m⌉ : ℤ) : ℚ) ≤ (((⌈m⌉.toNat : ℤ) : ℤ) : ℚ) := by
          exact_mod_cast h2
        push_cast at h3
        linarith
      have hm2 : m * (((L - 1 : ℕ) : ℚ) * d / (L : ℚ)) ≤ m * d :=
        mul_le_mul_of_nonneg_left hdivle hm.le
      have hm3 : m * d ≤ ((⌈m⌉.toNat : ℕ) : ℚ) * d :=
        mul_le_mul_of_nonneg_right hceil hd.le
      have hexp : ((L - 1 + (⌈m⌉.toNat + 1) : ℕ) : ℚ) =
          ((L - 1 : ℕ) : ℚ) + ((⌈m⌉.toNat : ℕ) : ℚ) + 1 := by
        push_cast
        ring
      rw [hexp] at hci
      nlinarith
  exact stRec_green_persists (arithCloses c0 d n) L hm.le
    (arithCloses_mono c0 d n hd) (L - 1 + (⌈m⌉.toNat + 1)) (n - 1)
    (by omega) (by rw [length_arithCloses]; omega) hgi0

/-- C9 (amended): restricted to series in which every bar's high and low
equal its close (so the intraday range cannot spike away from the closing
path) and the closes are strictly monotonically increasing:
1. once a bar's Supertrend signal is Green, no later bar's signal ever
   returns to Red;
2. the signal eventually settles to Green under an additional growth
   assumption — for equally-spaced closes (increment `d > 0`), every
   sufficiently long series ends Green.  (The extra assumption is needed:
   the `convergingBars` counterexample is strictly increasing with
   `high = low = close` and never turns Green.) -/
theorem supertrend_flat_increasing_green_persists_and_settles :
    (∀ (closes : List ℚ) (L : Nat) (m : ℚ), 0 ≤ m →
      (∀ k, k + 1 < closes.length →
        cAt closes k < cAt closes (k + 1)) →
      ∀ i j, i ≤ j → j < closes.length →
        (stRec (flatBars closes) L m i).green = true →
        (stRec (flatBars closes) L m j).green = true) ∧
    (∀ (L : Nat) (m c0 d : ℚ), 1 ≤ L → 0 < m → 0 < d →
      ∃ N : Nat, ∀ n, N ≤ n →
        (stRec (flatBars (arithCloses c0 d n)) L m (n - 1)).green = true) :=
  ⟨fun closes L m hm hmono i j hij hj hg =>
      stRec_green_persists closes L hm hmono i j hij hj hg,
    fun L m c0 d hL hm hd =>
      ⟨L + (⌈m⌉.toNat + 1), fun n hn =>
        stRec_arith_eventually_green c0 d m L hL hd hm n hn⟩⟩

/-- Witness for the amended C9 on the flat series `[1, 2, 3]` with
`atr_length = 1`, `multiplier = 0`: the signal is Green at bar 1, and by
persistence also at bar 2. -/
theorem supertrend_flat_increasing_green_witness :
    (stRec (flatBars [(1 : ℚ), 2, 3]) 1 0 2).green = true :=
  supertrend_flat_increasing_green_persists_and_settles.1
    [(1 : ℚ), 2, 3] 1 0 le_rfl
    (by
      intro k hk
      have hk2 : k = 0 ∨ k = 1 := by
        simp only [List.length_cons, List.length_nil] at hk
        omega
      rcases hk2 with rfl | rfl <;> norm_num [cAt])
    1 2 (by norm_num) (by norm_num)
    (by
      norm_num [stRec_succ, stRec_zero, basicUpperAt, basicLowerAt, atrAt,
        barAt, closeAt, flatBars, mk3, rollingMean1, windowAt, trList,
        trAux, nanLEb, nanGEb, nanGTb, nanLTb, pymin, pymax])

end Trading
